import Mathlib

/-!
Shallow embedding of the `ipy-hybrid-commands` repository
(`src/ipy_hybrid/hybrid_slash.py` and `src/ipy_hybrid/manager.py`) and proofs about it.

Conventions of the embedding:
* Python exceptions become the `Except PyError` monad; `interactions.errors.BadArgument`
  (the library's conversion error) is `PyError.badArgument`.
* Python `dict`s become association lists with Python's semantics (insertion order kept,
  assignment replaces in place, `del` removes the entry).
* Converters are embedded twice: translation-time converter *selection* works over a
  converter syntax tree `Conv` (which converter object `slash_to_prefixed` builds for a
  parameter), while the per-converter `convert` methods that the claims exercise are
  embedded as executable functions.
* Pieces that belong to external collaborators (the `interactions.py` prefixed-command
  manager, the repository's `context` module which is absent from `src/`) are modelled
  from the spec; each such definition says so in its doc comment.
-/

namespace IpyHybrid

/-- Python exceptions raised by the embedded code. `badArgument` models
`interactions.errors.BadArgument`, the conversion error of the library; `typeError`
models an (uncaught) builtin `TypeError`; `valueErrorMsg`/`typeErrorMsg` carry the
message of a `ValueError`/`TypeError` raised explicitly by the repository's code. -/
inductive PyError where
  | typeError
  | valueError
  | indexError
  | typeErrorMsg (msg : String)
  | valueErrorMsg (msg : String)
  | notImplemented (msg : String)
  | badArgument (msg : String)
  deriving DecidableEq, Repr

/-- The token set `BoolConverter.convert` maps to `True`
(`{"yes", "y", "true", "t", "1", "enable", "on"}`). -/
def trueTokens : List String := ["yes", "y", "true", "t", "1", "enable", "on"]

/-- The token set `BoolConverter.convert` maps to `False`
(`{"no", "n", "false", "f", "0", "disable", "off"}`). -/
def falseTokens : List String := ["no", "n", "false", "f", "0", "disable", "off"]

/-- Python `str.lower()`, modelled as ASCII lowering executed over the character list
(so that concrete instances evaluate by kernel reduction).  Python's lowering and ASCII
lowering agree on membership in the all-ASCII boolean token sets: the only non-ASCII
character whose Python lowercase is a plain ASCII letter is U+212A (which lowers to
"k", a letter that occurs in no token of either set). -/
def pyLower (s : String) : String :=
  String.mk (s.data.map Char.toLower)

/-- `BoolConverter.convert` from `hybrid_slash.py`: lower the argument, return `True` for
the fixed true-token set, `False` for the fixed false-token set, otherwise raise
`BadArgument`. -/
def boolConvert (argument : String) : Except PyError Bool :=
  let lowered := pyLower argument
  if lowered ∈ trueTokens then
    .ok true
  else if lowered ∈ falseTokens then
    .ok false
  else
    .error (.badArgument (argument ++ " is not a recognised boolean option."))

/-- An attachment of the invoking message (opaque payload, identified by an id). -/
structure Attachment where
  id : Nat
  deriving DecidableEq, Repr

/-- Modelled from the spec: the unified invocation context built from the text surface
(the repository's `context` module, which is absent from `src/`) carries the invoking
message's attachments and a mutable attachment cursor `__attachment_index__`,
initialized to zero (spec section 4.5). Only the part `AttachmentConverter.convert`
touches is modelled. -/
structure HybridCtx where
  attachments : List Attachment
  attachmentIndex : Nat
  deriving DecidableEq, Repr

/-- `AttachmentConverter.convert` from `hybrid_slash.py`: read
`ctx.message.attachments[ctx.__attachment_index__]`, advance the cursor, and turn the
`IndexError` of an out-of-range access into `BadArgument("No attachment found.")`.
The returned pair is the attachment together with the updated context. -/
def attachmentConvert (ctx : HybridCtx) : Except PyError (Attachment × HybridCtx) :=
  match ctx.attachments.get? ctx.attachmentIndex with
  | some a => .ok (a, { ctx with attachmentIndex := ctx.attachmentIndex + 1 })
  | none => .error (.badArgument "No attachment found.")

/-- The Discord option types (`interactions.OptionType`). -/
inductive OptionType where
  | subCommand
  | subCommandGroup
  | string
  | integer
  | boolean
  | user
  | channel
  | role
  | mentionable
  | number
  | attachment
  deriving DecidableEq, Repr

/-- Models the call `await maybe_coroutine(self.number_convert, ctx, argument)` inside
`RangeConverter.convert`.  `self.number_convert` is the builtin `int` (for
`OptionType.INTEGER`) or `float` (otherwise), and `maybe_coroutine(func, *args)` simply
calls `func(*args)`, so the call is `int(ctx, argument)` resp. `float(ctx, argument)`:
Python's two-argument `int(x, base)` requires `x` to be a string and `base` an integer,
and `float` accepts at most one argument, so both calls raise `TypeError` regardless of
the token - the parsed numeric value is never produced. -/
def numberConvertCall (_numberType : OptionType) (_argument : String) :
    Except PyError ℚ :=
  .error .typeError

/-- Python truthiness of the optional numeric bound, as used by
`if self.min_value and ...` / `if self.max_value and ...`: `None` and `0` are falsy. -/
def truthyNum : Option ℚ → Bool
  | none => false
  | some q => q != 0

/-- `RangeConverter.convert` from `hybrid_slash.py`.  The body mirrors the source:
parse via `number_convert` (see `numberConvertCall`), then reject values strictly below
`min_value` or strictly above `max_value` (each check guarded by the *truthiness* of the
bound), turning a `ValueError` from the parse into a descriptive `BadArgument` and
re-raising a `BadArgument`; any other exception (in particular the `TypeError` that the
parse call actually raises) propagates uncaught. -/
def rangeConvert (numberType : OptionType) (minValue maxValue : Option ℚ)
    (argument : String) : Except PyError ℚ :=
  match numberConvertCall numberType argument with
  | .ok converted =>
      if truthyNum minValue && decide (converted < minValue.getD 0) then
        .error (.badArgument
          ("Value \"" ++ argument ++ "\" is less than " ++ toString (minValue.getD 0) ++ "."))
      else if truthyNum maxValue && decide (converted > maxValue.getD 0) then
        .error (.badArgument
          ("Value \"" ++ argument ++ "\" is greater than " ++ toString (maxValue.getD 0) ++ "."))
      else
        .ok converted
  | .error e =>
      match e with
      | .valueError =>
          .error (.badArgument
            (if numberType = OptionType.number then
              "Argument \"" ++ argument ++ "\" is not a number."
            else
              "Argument \"" ++ argument ++ "\" is not an integer."))
      | e => .error e

/-- One constituent of `HackyUnionConverter`: the class name of the converter (as
`get_object_name` reports it) and the behaviour of `converter().convert(ctx, arg)`. -/
structure SubConverter (α : Type) where
  name : String
  run : String → Except PyError α

/-- `str.removesuffix("Converter")`, applied to each constituent's class name; executed
over the character list so that concrete instances evaluate by kernel reduction. -/
def removeConverterSuffix (s : String) : String :=
  if "Converter".data.isSuffixOf s.data then
    String.mk (s.data.take (s.data.length - 9))
  else s

/-- The `for converter in self.converters: try ... except Exception: continue` loop of
`HackyUnionConverter.convert`: first successful result wins, every constituent's own
exception is swallowed. -/
def unionTryAll {α : Type} (convs : List (SubConverter α)) (arg : String) : Option α :=
  match convs with
  | [] => none
  | c :: rest =>
      match c.run arg with
      | .ok v => some v
      | .error _ => unionTryAll rest arg

/-- The join `", ".join(union_names[:-1]) + f", or {union_names[-1]}"` used when every
constituent failed (the `[-1]` access of the empty list is handled by the caller). -/
def unionJoinNames (names : List String) : String :=
  String.intercalate ", " names.dropLast ++ ", or " ++ (names.getLast?.getD "")

/-- `HackyUnionConverter.convert` from `hybrid_slash.py`: try each constituent in order
and return the first success; if every constituent fails, raise one aggregate
`BadArgument` naming every attempted target type (class name minus the "Converter"
suffix).  On an empty converter list the `union_names[-1]` access raises `IndexError`. -/
def unionConvert {α : Type} (convs : List (SubConverter α)) (arg : String) :
    Except PyError α :=
  match unionTryAll convs arg with
  | some v => .ok v
  | none =>
      match (convs.map fun c => removeConverterSuffix c.name).getLast? with
      | none => .error .indexError
      | some _ =>
          .error (.badArgument
            ("Could not convert \"" ++ arg ++ "\" into " ++
              unionJoinNames (convs.map fun c => removeConverterSuffix c.name) ++ "."))

/-- Models the second step of `ChainConverter.convert`, the expression
`await maybe_coroutine(ipy.BaseCommand._get_converter_function(self.second_converter,
self.name_of_cmd)(ctx, first))`.  The converter function returned by
`_get_converter_function` is an `async def`, so applying it to `(ctx, first)` builds a
coroutine object without running the converter's body; that coroutine object - not the
function - is what `maybe_coroutine` receives as `func` with no further arguments, and
since `maybe_coroutine(func, *args)` simply calls `func(*args)` (a coroutine object is
not a coroutine *function*), the call is `coro()`, raising
`TypeError: 'coroutine' object is not callable`.  The custom converter's body therefore
never executes and never sees the first stage's output. -/
def chainSecondStageCall {β γ : Type} (_second : β → Except PyError γ) (_v : β) :
    Except PyError γ :=
  .error .typeError

/-- `ChainConverter.convert` from `hybrid_slash.py`: run the first converter on the raw
argument (its exception propagates), then perform the second-stage call (see
`chainSecondStageCall`: it raises an uncaught `TypeError` without running the custom
converter). -/
def chainRun {α β γ : Type} (first : α → Except PyError β) (second : β → Except PyError γ)
    (x : α) : Except PyError γ :=
  match first x with
  | .ok v => chainSecondStageCall second v
  | .error e => .error e

/-! ### Association lists with Python `dict` semantics -/

/-- `d.get(key)`: first entry with the key (keys are unique by construction). -/
def alistLookup {α : Type} : List (String × α) → String → Option α
  | [], _ => none
  | (k, v) :: rest, key => if k = key then some v else alistLookup rest key

/-- `d[key] = v`: replace in place if the key is present, else append at the end. -/
def alistInsert {α : Type} : List (String × α) → String → α → List (String × α)
  | [], key, v => [(key, v)]
  | (k, w) :: rest, key, v =>
      if k = key then (key, v) :: rest else (k, w) :: alistInsert rest key v

/-- `del d[key]`: drop the entry with the key. -/
def alistErase {α : Type} : List (String × α) → String → List (String × α)
  | [], _ => []
  | (k, v) :: rest, key => if k = key then rest else (k, v) :: alistErase rest key

/-- `d.setdefault(key, []).append(v)`. -/
def alistAppendVal {α : Type} : List (String × List α) → String → α → List (String × List α)
  | [], key, v => [(key, [v])]
  | (k, vs) :: rest, key, v =>
      if k = key then (k, vs ++ [v]) :: rest else (k, vs) :: alistAppendVal rest key v

/-! ### Converter selection (`slash_to_prefixed` and `type_from_option`) -/

/-- A Python value usable as a parameter default or a choice value. -/
inductive PyVal where
  | pyNone
  | int (n : Int)
  | str (s : String)
  | bool (b : Bool)
  | float (q : ℚ)
  deriving DecidableEq, Repr

/-- `interactions.SlashCommandChoice` (already standardized from a dict if needed). -/
structure SlashCommandChoice where
  name : String
  value : PyVal
  deriving DecidableEq, Repr

/-- The `type_to_convert` of a `BasicConverter` as built by `type_from_option`. -/
inductive BasicType where
  | str
  | int
  | float
  deriving DecidableEq, Repr

/-- A constituent converter class passed to `HackyUnionConverter` by `type_from_option`. -/
inductive UnionMember where
  | member
  | user
  | role
  deriving DecidableEq, Repr

/-- Syntax tree of the converter object `slash_to_prefixed` attaches to a synthesized
parameter slot.  Each constructor is one converter class of `hybrid_slash.py` (or, for
`baseChannel`/`roleConv`, the platform resolver `type_from_option` returns directly);
`custom i` stands for an author-supplied custom converter (opaque to translation). -/
inductive Conv where
  | basic (ty : BasicType)
  | boolConv
  | attachmentConv
  | choices (cs : List SlashCommandChoice)
  | range (numberType : OptionType) (minValue maxValue : Option ℚ)
  | strLength (minLength maxLength : Option Nat)
  | narrowedChannel (channelTypes : List Nat)
  | hackyUnion (members : List UnionMember)
  | baseChannel
  | roleConv
  | chain (first second : Conv) (nameOfCmd : String)
  | chainNoArg (first second : Conv) (nameOfCmd : String)
  | custom (id : Nat)
  deriving DecidableEq, Repr

/-- `isinstance(option_anno, ipy.NoArgumentConverter)`: among the embedded converter
classes, exactly `AttachmentConverter` and `ChainNoArgConverter` subclass
`NoArgumentConverter`. -/
def isNoArgConv : Conv → Bool
  | .attachmentConv => true
  | .chainNoArg _ _ _ => true
  | _ => false

/-- `type_from_option` from `hybrid_slash.py`: the default converter of each option
type; an unknown option type raises `NotImplementedError`. -/
def type_from_option (optionType : OptionType) : Except PyError Conv :=
  match optionType with
  | .string => .ok (.basic .str)
  | .integer => .ok (.basic .int)
  | .number => .ok (.basic .float)
  | .boolean => .ok .boolConv
  | .user => .ok (.hackyUnion [.member, .user])
  | .channel => .ok .baseChannel
  | .role => .ok .roleConv
  | .mentionable => .ok (.hackyUnion [.member, .user, .role])
  | .attachment => .ok .attachmentConv
  | _ => .error (.notImplemented "Unknown option type.")

/-- `interactions.SlashCommandOption`, restricted to the fields `slash_to_prefixed`
reads.  `choices` and `channelTypes` use the empty list for Python-falsy (`None` or
`[]`); the numeric and length bounds use `none` for Python `None`. -/
structure OptionSpec where
  name : String
  type : OptionType
  required : Bool
  autocomplete : Bool
  choices : List SlashCommandChoice
  minValue : Option ℚ
  maxValue : Option ℚ
  minLength : Option Nat
  maxLength : Option Nat
  channelTypes : List Nat
  deriving DecidableEq, Repr

/-- An option spec with no constraints, used as a base to build concrete options. -/
def plainOption (nm : String) (ty : OptionType) (req : Bool) : OptionSpec :=
  { name := nm, type := ty, required := req, autocomplete := false, choices := [],
    minValue := none, maxValue := none, minLength := none, maxLength := none,
    channelTypes := [] }

/-- The entry of `cmd.parameters` for an option name: the author's custom converter
(`none` when absent or falsy) and the author's declared default (`none` for
`ipy.MISSING`). -/
structure SlashParamInfo where
  converter : Option Conv
  default : Option PyVal
  deriving DecidableEq, Repr

/-- The default of a synthesized slot: `empty` is `inspect.Parameter.empty`
("no default"), `value v` is a concrete Python default (`value PyVal.pyNone` being the
neutral absent marker `None`). -/
inductive SlotDefault where
  | empty
  | value (v : PyVal)
  deriving DecidableEq, Repr

/-- One synthesized slot: the `inspect.Parameter` that `slash_to_prefixed` appends to
`fake_sig_parameters` (its kind is always `KEYWORD_ONLY` and is left implicit). -/
structure FakeParam where
  name : String
  anno : Conv
  dflt : SlotDefault
  deriving DecidableEq, Repr

/-- The `option_anno` selection chain of `slash_to_prefixed`:
`if option.choices: ... elif option.min_value is not None or option.max_value is not
None: ... elif option.min_length is not None or option.max_length is not None: ...
elif option.type == ipy.OptionType.CHANNEL and option.channel_types: ...
else: type_from_option(option.type)`. -/
def computeOptionAnno (opt : OptionSpec) : Except PyError Conv :=
  if opt.choices ≠ [] then
    .ok (.choices opt.choices)
  else if opt.minValue.isSome || opt.maxValue.isSome then
    .ok (.range opt.type opt.minValue opt.maxValue)
  else if opt.minLength.isSome || opt.maxLength.isSome then
    .ok (.strLength opt.minLength opt.maxLength)
  else if opt.type = OptionType.channel ∧ opt.channelTypes ≠ [] then
    .ok (.narrowedChannel opt.channelTypes)
  else
    type_from_option opt.type

/-- The annotation combination step of `slash_to_prefixed`: with no custom converter the
option converter is used; with a custom converter the option converter is chained in
front of it (`ChainNoArgConverter` when the option converter is a no-argument kind,
`ChainConverter` otherwise). -/
def resolveAnno (customConv : Option Conv) (optionAnno : Conv) (nm : String) : Conv :=
  match customConv with
  | none => optionAnno
  | some c =>
      if isNoArgConv optionAnno then .chainNoArg optionAnno c nm
      else .chain optionAnno c nm

/-- The `default` local of `slash_to_prefixed` after the `cmd.parameters` lookup:
the author's declared default when the parameter exists and its default is not
`ipy.MISSING`, else `inspect.Parameter.empty`. -/
def authorDefault (params : List (String × SlashParamInfo)) (nm : String) : SlotDefault :=
  match alistLookup params nm with
  | some sp =>
      match sp.default with
      | some v => .value v
      | none => .empty
  | none => .empty

/-- `if not option.required and default == inspect.Parameter.empty: default = None`. -/
def synthesizedDefault (params : List (String × SlashParamInfo)) (opt : OptionSpec) :
    SlotDefault :=
  match opt.required, authorDefault params opt.name with
  | false, .empty => .value .pyNone
  | _, d => d

/-- The body of the per-option loop of `slash_to_prefixed`: reject autocomplete with
`ValueError`, select the option converter, combine it with the author's custom
converter, compute the default, and build the synthetic `inspect.Parameter`. -/
def optionToParam (params : List (String × SlashParamInfo)) (opt : OptionSpec) :
    Except PyError FakeParam :=
  if opt.autocomplete then
    .error (.valueErrorMsg "Cannot use autocomplete in hybrid commands.")
  else
    match computeOptionAnno opt with
    | .error e => .error e
    | .ok optionAnno =>
        let customConv := (alistLookup params opt.name).bind fun sp => sp.converter
        .ok { name := opt.name,
              anno := resolveAnno customConv optionAnno opt.name,
              dflt := synthesizedDefault params opt }

/-- The whole option loop of `slash_to_prefixed`: the synthesized slots in declaration
order, or the first exception the loop raises (in which case no signature is built). -/
def slashToPrefixedParams (params : List (String × SlashParamInfo)) :
    List OptionSpec → Except PyError (List FakeParam)
  | [] => .ok []
  | opt :: rest =>
      match optionToParam params opt with
      | .error e => .error e
      | .ok p =>
          match slashToPrefixedParams params rest with
          | .error e => .error e
          | .ok ps => .ok (p :: ps)

/-! ### Spec-side definitions (for refinement claims) -/

/-- The claim's default rule, stated from the spec's words: the author's explicit
default if present, otherwise the neutral absent marker (`None`) if the parameter is
optional, otherwise no default. -/
def claimedDefault (params : List (String × SlashParamInfo)) (opt : OptionSpec) :
    SlotDefault :=
  match (alistLookup params opt.name).bind fun sp => sp.default with
  | some v => .value v
  | none => if opt.required then .empty else .value .pyNone

/-- The kind's default converter as the spec's resolution step (5) states it:
mentionable/user kinds use a union converter over their constituent entity types,
attachment uses the no-argument attachment converter, and the remaining kinds use their
direct-cast, boolean-keyword, or platform entity resolver default. -/
def specDefaultConverter (kind : OptionType) : Except PyError Conv :=
  match kind with
  | .user => .ok (.hackyUnion [.member, .user])
  | .mentionable => .ok (.hackyUnion [.member, .user, .role])
  | .attachment => .ok .attachmentConv
  | .string => .ok (.basic .str)
  | .integer => .ok (.basic .int)
  | .number => .ok (.basic .float)
  | .boolean => .ok .boolConv
  | .channel => .ok .baseChannel
  | .role => .ok .roleConv
  | _ => .error (.notImplemented "Unknown option type.")

/-- The spec's resolution order (section 4.2), stated from the spec's words:
(1) a present choice list takes precedence over everything, (2) else numeric bounds
select the numeric-range converter, (3) else string-length bounds select the
string-length converter, (4) else a channel-like kind with a subtype allow-list selects
the narrowed-entity converter, (5) else the kind's default converter. -/
def specResolveOptionConverter (opt : OptionSpec) : Except PyError Conv :=
  if opt.choices ≠ [] then
    .ok (.choices opt.choices)
  else if opt.minValue.isSome || opt.maxValue.isSome then
    .ok (.range opt.type opt.minValue opt.maxValue)
  else if opt.minLength.isSome || opt.maxLength.isSome then
    .ok (.strLength opt.minLength opt.maxLength)
  else if opt.type = OptionType.channel ∧ opt.channelTypes ≠ [] then
    .ok (.narrowedChannel opt.channelTypes)
  else
    specDefaultConverter opt.type

/-! ### The text-surface command tree and the hybrid manager (`manager.py`) -/

/-- A node of the text command tree: a prefixed command with its name, whether it is a
synthetic placeholder built by `base_subcommand_generator` (placeholders carry an empty
signature and a callback that only raises), its synthesized slots, and its subcommand
children keyed by name.  Aliases (derived from localized names) are not modelled: every
embedded command's locale dictionary is empty, so its alias list is empty. -/
inductive PNode where
  | mk (name : String) (placeholder : Bool) (params : List FakeParam)
      (subs : List (String × PNode))

/-- The name of a tree node. -/
def PNode.name : PNode → String
  | .mk n _ _ _ => n

/-- The subcommand children map of a tree node. -/
def PNode.subs : PNode → List (String × PNode)
  | .mk _ _ _ s => s

/-- `parent.add_command(child)` (respectively the in-place mutation of an existing
child fetched from `parent.subcommands`): set the child under its name. -/
def PNode.setSub : PNode → String → PNode → PNode
  | .mk n p pr subs, key, child => .mk n p pr (alistInsert subs key child)

/-- Removal of the child with the given name from a node's children map. -/
def PNode.eraseSub : PNode → String → PNode
  | .mk n p pr subs, key => .mk n p pr (alistErase subs key)

/-- `base_subcommand_generator` from `hybrid_slash.py`: a synthetic placeholder node
with an empty signature and no children (the `group` flag only changes the error message
of the placeholder's callback and is not part of the tree shape). -/
def baseSubcommandGen (nm : String) : PNode := .mk nm true [] []

/-- A `HybridSlashCommand` restricted to the fields `manager.py` and
`slash_to_prefixed` read.  `subCmdName`/`groupName`/`extensionName` use `none` for the
Python-falsy unset value, so `is_subcommand` is `subCmdName.isSome`; `hasCallback`
models the truthiness of `event.callback.callback`. -/
structure HybridCmd where
  name : String
  groupName : Option String
  subCmdName : Option String
  extensionName : Option String
  options : List OptionSpec
  parameters : List (String × SlashParamInfo)
  hasCallback : Bool
  deriving Repr

/-- What `slash_to_prefixed` produces: the `_HybridToPrefixedCommand` with its name
(the subcommand name for a subcommand, else the base name) and synthesized slots. -/
structure PrefixedCmdInfo where
  name : String
  params : List FakeParam
  deriving DecidableEq, Repr

/-- `slash_to_prefixed` from `hybrid_slash.py` at command granularity: synthesize the
slot list (any exception of the loop aborts with nothing built) and name the prefixed
command after the subcommand name when the command is a subcommand. -/
def slashToPrefixedCmd (cmd : HybridCmd) : Except PyError PrefixedCmdInfo :=
  match slashToPrefixedParams cmd.parameters cmd.options with
  | .error e => .error e
  | .ok ps => .ok { name := cmd.subCmdName.getD cmd.name, params := ps }

/-- Modelled from the spec: the fully-qualified name `cmd.resolved_name` of an
`interactions.py` slash command (base name, then group name if any, then subcommand name
if any).  The joined string is kept as its segment list, which is what the tree-removal
path consumes. -/
def resolvedName (cmd : HybridCmd) : List String :=
  [cmd.name] ++ (cmd.groupName.map fun g => [g]).getD []
    ++ (cmd.subCmdName.map fun s => [s]).getD []

/-- The state the hybrid manager works on: the text tree's root command map
(`client.prefixed.commands`, modelled from the spec as a name-keyed map of nodes) and
the manager's extension command index `ext_command_list`. -/
structure MState where
  commands : List (String × PNode)
  extCommandList : List (String × List (List String))

/-- `HybridManager.on_callback_added` from `manager.py`: skip a callback-less command;
translate the command (an exception here propagates and leaves the state untouched);
for a subcommand, look up or create the base placeholder, then (for a group command)
look up or create the group placeholder under it, and insert the leaf under the resolved
parent; for a plain command, insert the leaf at the root; finally record the
fully-qualified name under the owning extension, if any.  The returned `Option PyError`
is the exception the listener raises, `none` on success. -/
def onCallbackAdded (st : MState) (cmd : HybridCmd) : MState × Option PyError :=
  if !cmd.hasCallback then (st, none)
  else
    match slashToPrefixedCmd cmd with
    | .error e => (st, some e)
    | .ok info =>
        let leaf : PNode := .mk info.name false info.params []
        let commands1 :=
          if cmd.subCmdName.isSome then
            let base := (alistLookup st.commands cmd.name).getD (baseSubcommandGen cmd.name)
            let base1 :=
              match cmd.groupName with
              | some gn =>
                  let grp := (alistLookup base.subs gn).getD (baseSubcommandGen gn)
                  base.setSub gn (grp.setSub info.name leaf)
              | none => base.setSub info.name leaf
            alistInsert st.commands cmd.name base1
          else
            alistInsert st.commands info.name leaf
        let extList :=
          match cmd.extensionName with
          | some e => alistAppendVal st.extCommandList e (resolvedName cmd)
          | none => st.extCommandList
        ({ commands := commands1, extCommandList := extList }, none)

/-- Modelled from the spec:
`client.prefixed.remove_command(name, delete_parent_if_empty=True)` from
`interactions.ext.prefixed_commands` is not part of this repository's sources.  Per the
spec (section 4.4 step 4), it removes the leaf named by the fully-qualified name from
the text tree and prunes each parent placeholder that is left with no children. -/
def removeCommand (cmds : List (String × PNode)) (qual : List String) :
    List (String × PNode) :=
  match qual with
  | [n] => alistErase cmds n
  | [bn, sn] =>
      match alistLookup cmds bn with
      | none => cmds
      | some base =>
          let base1 := base.eraseSub sn
          if base1.subs.isEmpty then alistErase cmds bn
          else alistInsert cmds bn base1
  | [bn, gn, sn] =>
      match alistLookup cmds bn with
      | none => cmds
      | some base =>
          match alistLookup base.subs gn with
          | none => cmds
          | some grp =>
              let grp1 := grp.eraseSub sn
              let base1 :=
                if grp1.subs.isEmpty then base.eraseSub gn
                else base.setSub gn grp1
              if base1.subs.isEmpty then alistErase cmds bn
              else alistInsert cmds bn base1
  | _ => cmds

/-- `HybridManager.handle_ext_unload` from `manager.py`: if the extension has no
(or an empty) entry in `ext_command_list`, return; else remove every recorded
fully-qualified command (pruning empty parents) and drop the extension's entry. -/
def handleExtUnload (st : MState) (extName : String) : MState :=
  match alistLookup st.extCommandList extName with
  | none => st
  | some [] => st
  | some names =>
      { commands := names.foldl removeCommand st.commands,
        extCommandList := alistErase st.extCommandList extName }

/-! ### Manager construction (`HybridManager.__init__` and `setup`) -/

/-- The `client.prefixed` attribute as `HybridManager.__init__` probes it: absent
(`hasattr` fails), present but not a `prefixed.PrefixedManager` instance, or a proper
prefixed manager carrying the text command tree. -/
inductive PrefixedAttr where
  | absent
  | notManager
  | manager (commands : List (String × PNode))

/-- The client passed to `HybridManager(...)` / `setup(...)`. -/
structure Client where
  prefixedAttr : PrefixedAttr

/-- The result of a successful `HybridManager.__init__`: the manager is attached to the
client (`client.hybrid = self`), its extension command index starts empty, and the two
event listeners are registered. -/
structure InitializedManager where
  commands : List (String × PNode)
  extCommandList : List (String × List (List String))
  hybridSet : Bool
  listenersAdded : Nat

/-- `HybridManager.__init__` from `manager.py`: raise `TypeError` when the client has no
`prefixed` attribute or it is not a `PrefixedManager` (this check precedes every
mutation, so a failing construction touches neither the client nor any listener);
otherwise attach the manager and start with an empty extension command index. -/
def hybridManagerInit (c : Client) : Except PyError InitializedManager :=
  match c.prefixedAttr with
  | .manager cmds =>
      .ok { commands := cmds, extCommandList := [], hybridSet := true, listenersAdded := 2 }
  | _ => .error (.typeErrorMsg "Prefixed commands are not set up for this bot.")

/-- `setup` from `manager.py`: it just constructs `HybridManager(client, ctx)`. -/
def setupHybrid (c : Client) : Except PyError InitializedManager :=
  hybridManagerInit c

/-! ### Helper lemmas -/

theorem alistLookup_append_of_none {α : Type} {m : List (String × α)} {k : String}
    (l : List (String × α)) (h : alistLookup m k = none) :
    alistLookup (m ++ l) k = alistLookup l k := by
  induction m with
  | nil => rfl
  | cons hd tl ih =>
      obtain ⟨k2, v⟩ := hd
      by_cases hk : k2 = k
      · simp [alistLookup, hk] at h
      · simp only [alistLookup, hk, if_neg hk, List.cons_append] at h ⊢
        exact ih h

theorem alistInsert_append_of_none {α : Type} {m : List (String × α)} {k : String}
    (l : List (String × α)) (v : α) (h : alistLookup m k = none) :
    alistInsert (m ++ l) k v = m ++ alistInsert l k v := by
  induction m with
  | nil => rfl
  | cons hd tl ih =>
      obtain ⟨k2, w⟩ := hd
      by_cases hk : k2 = k
      · simp [alistLookup, hk] at h
      · have h2 : alistLookup tl k = none := by simpa [alistLookup, hk] using h
        simp [alistInsert, hk, ih h2]

theorem alistInsert_of_none {α : Type} {m : List (String × α)} {k : String}
    (v : α) (h : alistLookup m k = none) :
    alistInsert m k v = m ++ [(k, v)] := by
  have h2 := alistInsert_append_of_none (m := m) (k := k) [] v h
  simpa using h2

theorem alistErase_append_of_none {α : Type} {m : List (String × α)} {k : String}
    (l : List (String × α)) (h : alistLookup m k = none) :
    alistErase (m ++ l) k = m ++ alistErase l k := by
  induction m with
  | nil => rfl
  | cons hd tl ih =>
      obtain ⟨k2, w⟩ := hd
      by_cases hk : k2 = k
      · simp [alistLookup, hk] at h
      · have h2 : alistLookup tl k = none := by simpa [alistLookup, hk] using h
        simp [alistErase, hk, ih h2]

theorem alistAppendVal_append_of_none {α : Type} {m : List (String × List α)} {k : String}
    (l : List (String × List α)) (v : α) (h : alistLookup m k = none) :
    alistAppendVal (m ++ l) k v = m ++ alistAppendVal l k v := by
  induction m with
  | nil => rfl
  | cons hd tl ih =>
      obtain ⟨k2, vs⟩ := hd
      by_cases hk : k2 = k
      · simp [alistLookup, hk] at h
      · have h2 : alistLookup tl k = none := by simpa [alistLookup, hk] using h
        simp [alistAppendVal, hk, ih h2]

theorem mem_trueTokens_not_falseTokens {s : String} (h : s ∈ trueTokens) :
    s ∉ falseTokens := by
  intro hf
  simp only [trueTokens, List.mem_cons, List.not_mem_nil, or_false] at h
  rcases h with h | h | h | h | h | h | h <;> subst h <;>
    exact absurd hf (by decide)

theorem unionTryAll_all_error {α : Type} {convs : List (SubConverter α)} {arg : String}
    (h : ∀ p ∈ convs, ∃ e, p.run arg = .error e) :
    unionTryAll convs arg = none := by
  induction convs with
  | nil => rfl
  | cons c rest ih =>
      obtain ⟨e, he⟩ := h c (List.mem_cons_self c rest)
      simp only [unionTryAll, he]
      exact ih fun p hp => h p (List.mem_cons_of_mem c hp)

theorem unionTryAll_first_ok {α : Type} {pre post : List (SubConverter α)}
    {c : SubConverter α} {arg : String} {v : α}
    (hpre : ∀ p ∈ pre, ∃ e, p.run arg = .error e) (hc : c.run arg = .ok v) :
    unionTryAll (pre ++ c :: post) arg = some v := by
  induction pre with
  | nil => simp [unionTryAll, hc]
  | cons p rest ih =>
      obtain ⟨e, he⟩ := hpre p (List.mem_cons_self p rest)
      simp only [List.cons_append, unionTryAll, he]
      exact ih fun q hq => hpre q (List.mem_cons_of_mem p hq)

theorem synthesizedDefault_eq_claimed (params : List (String × SlashParamInfo))
    (opt : OptionSpec) : synthesizedDefault params opt = claimedDefault params opt := by
  unfold synthesizedDefault claimedDefault authorDefault
  cases h : alistLookup params opt.name with
  | none => cases opt.required <;> rfl
  | some sp =>
      obtain ⟨cv, df⟩ := sp
      cases df <;> cases opt.required <;> rfl

theorem optionToParam_fields {params : List (String × SlashParamInfo)} {opt : OptionSpec}
    {p : FakeParam} (h : optionToParam params opt = .ok p) :
    p.name = opt.name ∧ p.dflt = claimedDefault params opt := by
  unfold optionToParam at h
  by_cases ha : opt.autocomplete
  · simp [ha] at h
  · simp only [ha, if_false, Bool.false_eq_true] at h
    cases hc : computeOptionAnno opt with
    | error e => rw [hc] at h; exact absurd h (by simp)
    | ok oa =>
        rw [hc] at h
        have hp := Except.ok.inj h
        subst hp
        exact ⟨rfl, synthesizedDefault_eq_claimed params opt⟩

/-! ### Claim theorems -/

/-- Claim C1 (code-bug evidence): `RangeConverter.convert` raises an uncaught `TypeError`
for every token and every bound configuration, because
`maybe_coroutine(self.number_convert, ctx, argument)` calls the builtin `int`/`float`
with the context object as an extra first argument; no in-range token ever converts
successfully, and the failure is not a `ConversionError`. -/
theorem rangeConverter_raises_typeError (numberType : OptionType)
    (minValue maxValue : Option ℚ) (argument : String) :
    rangeConvert numberType minValue maxValue argument = .error .typeError := rfl

/-- Claim C7: the boolean converter returns `true` exactly when the case-insensitively
compared token is in the fixed true set, `false` exactly when it is in the fixed false
set, and raises a `BadArgument` conversion error for every other token. -/
theorem boolConverter_token_sets (argument : String) :
    (boolConvert argument = .ok true ↔ pyLower argument ∈ trueTokens) ∧
    (boolConvert argument = .ok false ↔ pyLower argument ∈ falseTokens) ∧
    (pyLower argument ∉ trueTokens → pyLower argument ∉ falseTokens →
      boolConvert argument =
        .error (.badArgument (argument ++ " is not a recognised boolean option."))) := by
  unfold boolConvert
  by_cases ht : pyLower argument ∈ trueTokens
  · have hf := mem_trueTokens_not_falseTokens ht
    simp [ht, hf]
  · by_cases hf : pyLower argument ∈ falseTokens
    · simp [ht, hf]
    · simp [ht, hf]

/-- Witness for `boolConverter_token_sets` at concrete tokens. -/
theorem boolConverter_token_sets_witness :
    boolConvert "YES" = .ok true ∧ boolConvert "off" = .ok false ∧
    boolConvert "maybe" =
      .error (.badArgument "maybe is not a recognised boolean option.") :=
  ⟨(boolConverter_token_sets "YES").1.mpr (by decide),
   (boolConverter_token_sets "off").2.1.mpr (by decide),
   (boolConverter_token_sets "maybe").2.2 (by decide) (by decide)⟩

/-- Claim C8: the attachment converter consumes no token: it returns the attachment at
the context's cursor position and advances the cursor by one; a cursor at or past the
end raises `BadArgument("No attachment found.")`; with 2 attachments, two conversions
succeed in order and a third raises the conversion error. -/
theorem attachment_cursor_semantics :
    (∀ (ctx : HybridCtx) (a : Attachment),
      ctx.attachments.get? ctx.attachmentIndex = some a →
      attachmentConvert ctx =
        .ok (a, { ctx with attachmentIndex := ctx.attachmentIndex + 1 })) ∧
    (∀ ctx : HybridCtx, ctx.attachments.length ≤ ctx.attachmentIndex →
      attachmentConvert ctx = .error (.badArgument "No attachment found.")) ∧
    (∀ a0 a1 : Attachment,
      attachmentConvert ⟨[a0, a1], 0⟩ = .ok (a0, ⟨[a0, a1], 1⟩) ∧
      attachmentConvert ⟨[a0, a1], 1⟩ = .ok (a1, ⟨[a0, a1], 2⟩) ∧
      attachmentConvert ⟨[a0, a1], 2⟩ = .error (.badArgument "No attachment found.")) := by
  refine ⟨fun ctx a h => ?_, fun ctx h => ?_, fun a0 a1 => ⟨rfl, rfl, rfl⟩⟩
  · unfold attachmentConvert
    rw [h]
  · unfold attachmentConvert
    rw [List.get?_eq_none.mpr h]

/-- Witness for `attachment_cursor_semantics` at a concrete context. -/
theorem attachment_cursor_semantics_witness :
    attachmentConvert ⟨[⟨0⟩, ⟨1⟩], 0⟩ = .ok (⟨0⟩, ⟨[⟨0⟩, ⟨1⟩], 1⟩) ∧
    attachmentConvert ⟨[⟨0⟩, ⟨1⟩], 2⟩ = .error (.badArgument "No attachment found.") :=
  ⟨attachment_cursor_semantics.1 ⟨[⟨0⟩, ⟨1⟩], 0⟩ ⟨0⟩ rfl,
   attachment_cursor_semantics.2.1 ⟨[⟨0⟩, ⟨1⟩], 2⟩ (by decide)⟩

theorem specDefault_eq_type_from_option (t : OptionType) :
    specDefaultConverter t = type_from_option t := by
  cases t <;> rfl

/-- Claim C3: the converter selected by translation for an option equals the spec's
resolution order: choices take precedence, then numeric bounds, then string-length
bounds, then channel narrowing, then the kind's default converter. -/
theorem converter_selection_matches_spec_order (opt : OptionSpec) :
    computeOptionAnno opt = specResolveOptionConverter opt := by
  unfold computeOptionAnno specResolveOptionConverter
  rw [specDefault_eq_type_from_option]

/-- Claim C10: constructing the hybrid manager (directly or via `setup`) raises
`TypeError` when the client lacks a proper prefixed-command manager - the check precedes
every mutation - and a successful construction attaches the manager to the client and
starts with an empty extension command index. -/
theorem manager_init_requires_prefixed :
    (∀ c : Client, setupHybrid c = hybridManagerInit c) ∧
    hybridManagerInit ⟨.absent⟩ =
      .error (.typeErrorMsg "Prefixed commands are not set up for this bot.") ∧
    hybridManagerInit ⟨.notManager⟩ =
      .error (.typeErrorMsg "Prefixed commands are not set up for this bot.") ∧
    (∀ cmds, hybridManagerInit ⟨.manager cmds⟩ =
      .ok { commands := cmds, extCommandList := [], hybridSet := true,
            listenersAdded := 2 }) :=
  ⟨fun _ => rfl, rfl, rfl, fun _ => rfl⟩

/-- The option of the C2 counterexample: a plain string option with no constraints. -/
def c2Opt : OptionSpec := plainOption "x" .string true

/-- The parameter table of the C2 counterexample: the author supplied a custom converter
for the option name. -/
def c2Params : List (String × SlashParamInfo) :=
  [("x", { converter := some (.custom 0), default := none })]

/-- Claim C2 counterexample: for a parameter with a custom converter and no
constraint-derived converter, translation does not use the custom converter alone - it
chains the kind's default converter (here `BasicConverter(str)`) in front of it. -/
theorem custom_converter_not_alone :
    optionToParam c2Params c2Opt =
      .ok { name := "x", anno := .chain (.basic .str) (.custom 0) "x", dflt := .empty } ∧
    Conv.chain (.basic .str) (.custom 0) "x" ≠ Conv.custom 0 :=
  ⟨rfl, fun h => Conv.noConfusion h⟩

/-- Claim C2 (amended): when the author supplies a custom converter, the selected option
converter (constraint-derived or the kind's default) is always chained in front of it,
with the no-argument chain variant exactly when the option converter is of the
no-argument attachment kind; without a custom converter the option converter is used
alone.  At call time the chain runs the option converter first and propagates its error
when it fails; when it succeeds, the chain's second step misuses `maybe_coroutine`
(handing it the already-built coroutine object, which it then calls) and raises an
uncaught `TypeError`, so the custom converter never receives the first stage's
output. -/
theorem custom_converter_always_chained :
    (∀ (c oa : Conv) (nm : String),
      resolveAnno (some c) oa nm =
        if isNoArgConv oa then Conv.chainNoArg oa c nm else Conv.chain oa c nm) ∧
    (∀ (oa : Conv) (nm : String), resolveAnno none oa nm = oa) ∧
    (∀ (α β γ : Type) (first : α → Except PyError β) (second : β → Except PyError γ)
      (x : α) (v : β), first x = .ok v →
      chainRun first second x = .error .typeError) ∧
    (∀ (α β γ : Type) (first : α → Except PyError β) (second : β → Except PyError γ)
      (x : α) (e : PyError), first x = .error e →
      chainRun first second x = .error e) := by
  refine ⟨fun c oa nm => rfl, fun oa nm => rfl,
    fun α β γ f g x v h => ?_, fun α β γ f g x e h => ?_⟩
  · unfold chainRun
    rw [h]
    rfl
  · unfold chainRun
    rw [h]

/-- Witness for `custom_converter_always_chained` at a concrete chain. -/
theorem custom_converter_always_chained_witness :
    resolveAnno (some (Conv.custom 1)) Conv.boolConv "p" =
      Conv.chain Conv.boolConv (Conv.custom 1) "p" ∧
    chainRun (fun _ : String => (Except.ok 3 : Except PyError Nat))
      (fun n => .ok (n + 1)) "t" = .error .typeError ∧
    chainRun (fun _ : String => (Except.error .indexError : Except PyError Nat))
      (fun n => (.ok (n + 1) : Except PyError Nat)) "t" = .error .indexError :=
  ⟨custom_converter_always_chained.1 (Conv.custom 1) Conv.boolConv "p",
   custom_converter_always_chained.2.2.1 String Nat Nat _ _ "t" 3 rfl,
   custom_converter_always_chained.2.2.2 String Nat Nat _ _ "t" .indexError rfl⟩

/-- Claim C6: the union converter returns the first constituent's success (a token valid
only for a later constituent succeeds with that constituent's result); if every
constituent fails, each individual error is swallowed and one aggregate `BadArgument` is
raised whose message names every attempted target type, joined in the "A, B, or C"
form. -/
theorem union_converter_semantics :
    (∀ (α : Type) (pre post : List (SubConverter α)) (c : SubConverter α)
      (arg : String) (v : α),
      (∀ p ∈ pre, ∃ e, p.run arg = .error e) → c.run arg = .ok v →
      unionConvert (pre ++ c :: post) arg = .ok v) ∧
    (∀ (α : Type) (convs : List (SubConverter α)) (arg last : String),
      (∀ p ∈ convs, ∃ e, p.run arg = .error e) →
      (convs.map fun c => removeConverterSuffix c.name).getLast? = some last →
      unionConvert convs arg =
        .error (.badArgument ("Could not convert \"" ++ arg ++ "\" into " ++
          unionJoinNames (convs.map fun c => removeConverterSuffix c.name) ++ "."))) ∧
    (∀ a b c : String, unionJoinNames [a, b, c] = a ++ ", " ++ b ++ ", or " ++ c) := by
  refine ⟨fun α pre post c arg v hpre hc => ?_,
          fun α convs arg last hall hlast => ?_, fun a b c => ?_⟩
  · unfold unionConvert
    rw [unionTryAll_first_ok hpre hc]
  · unfold unionConvert
    rw [unionTryAll_all_error hall, hlast]
  · rfl

/-- Concrete constituents for the union-converter witness: the first always fails, the
second converts one specific token. -/
def memberLikeConv : SubConverter Nat :=
  { name := "MemberConverter", run := fun _ => .error .typeError }

/-- See `memberLikeConv`. -/
def userLikeConv : SubConverter Nat :=
  { name := "UserConverter", run := fun s => if s = "123" then .ok 123 else .error .typeError }

/-- Witness for `union_converter_semantics`: a token valid only for the second
constituent succeeds with its result, and a token invalid for both raises the aggregate
error naming both targets. -/
theorem union_converter_semantics_witness :
    unionConvert [memberLikeConv, userLikeConv] "123" = .ok 123 ∧
    unionConvert [memberLikeConv, userLikeConv] "zzz" =
      .error (.badArgument "Could not convert \"zzz\" into Member, or User.") := by
  constructor
  · exact union_converter_semantics.1 Nat [memberLikeConv] [] userLikeConv "123" 123
      (fun p hp => by
        simp only [List.mem_singleton] at hp
        subst hp
        exact ⟨.typeError, rfl⟩)
      rfl
  · have h := union_converter_semantics.2.1 Nat [memberLikeConv, userLikeConv] "zzz" "User"
      (fun p hp => by
        simp only [List.mem_cons, List.not_mem_nil, or_false] at hp
        rcases hp with rfl | rfl
        · exact ⟨.typeError, rfl⟩
        · exact ⟨.typeError, rfl⟩)
      (by decide)
    exact h

/-- Claim C4: a successful translation yields exactly one slot per option, in declaration
order with the declared names; each slot's default follows the claimed rule (author's
explicit default, else the `None` absent marker when optional, else no default); and
translation is deterministic, so re-translating the same schema yields an equal slot
list. -/
theorem signature_synthesis_slots (params : List (String × SlashParamInfo)) :
    ∀ (opts : List OptionSpec) (res : List FakeParam),
      slashToPrefixedParams params opts = .ok res →
      res.length = opts.length ∧
      (∀ i, (res.get? i).map FakeParam.name = (opts.get? i).map OptionSpec.name) ∧
      (∀ i, (res.get? i).map FakeParam.dflt = (opts.get? i).map (claimedDefault params)) ∧
      (∀ res2, slashToPrefixedParams params opts = .ok res2 → res2 = res) := by
  intro opts
  induction opts with
  | nil =>
      intro res h
      have hres := Except.ok.inj h
      subst hres
      exact ⟨rfl, fun i => rfl, fun i => rfl, fun res2 h2 => (Except.ok.inj h2).symm⟩
  | cons opt rest ih =>
      intro res h
      simp only [slashToPrefixedParams] at h
      cases hp : optionToParam params opt with
      | error e => rw [hp] at h; exact absurd h (by simp)
      | ok p =>
          rw [hp] at h
          cases hr : slashToPrefixedParams params rest with
          | error e => rw [hr] at h; exact absurd h (by simp)
          | ok ps =>
              rw [hr] at h
              have hres := Except.ok.inj h
              subst hres
              obtain ⟨hl, hn, hd, hdet⟩ := ih ps hr
              obtain ⟨hpn, hpd⟩ := optionToParam_fields hp
              refine ⟨by simp [hl], fun i => ?_, fun i => ?_, fun res2 h2 => ?_⟩
              · cases i with
                | zero => simp [hpn]
                | succ n => simpa using hn n
              · cases i with
                | zero => simp [hpd]
                | succ n => simpa using hd n
              · simp only [slashToPrefixedParams, hp, hr] at h2
                exact (Except.ok.inj h2).symm

/-- Witness for `signature_synthesis_slots` on a concrete two-option schema. -/
theorem signature_synthesis_slots_witness :
    ([FakeParam.mk "a" (.basic .str) .empty,
      FakeParam.mk "b" (.basic .int) (.value .pyNone)] : List FakeParam).length =
      [plainOption "a" OptionType.string true,
       plainOption "b" OptionType.integer false].length :=
  (signature_synthesis_slots [] [plainOption "a" OptionType.string true,
    plainOption "b" OptionType.integer false] _ rfl).1

/-- Claim C9: an autocomplete-enabled option makes translation raise a `ValueError`
synchronously (so no slot list is produced for the command), and when translation of a
command raises, the manager's registration listener re-raises it with the tree and the
extension index left exactly as they were, so already-mirrored commands are
unaffected. -/
theorem autocomplete_rejected_at_translation :
    (∀ (params : List (String × SlashParamInfo)) (opt : OptionSpec),
      opt.autocomplete = true →
      optionToParam params opt =
        .error (.valueErrorMsg "Cannot use autocomplete in hybrid commands.")) ∧
    (∀ (st : MState) (cmd : HybridCmd) (e : PyError),
      cmd.hasCallback = true → slashToPrefixedCmd cmd = .error e →
      onCallbackAdded st cmd = (st, some e)) := by
  constructor
  · intro params opt h
    unfold optionToParam
    simp [h]
  · intro st cmd e hcb htr
    unfold onCallbackAdded
    simp [hcb, htr]

/-- The autocomplete-enabled option of the C9 witness. -/
def autoOpt : OptionSpec := { plainOption "q" .string true with autocomplete := true }

/-- A command carrying `autoOpt`, for the C9 witness. -/
def autoCmd : HybridCmd :=
  { name := "c", groupName := none, subCmdName := none, extensionName := none,
    options := [autoOpt], parameters := [], hasCallback := true }

/-- Witness for `autocomplete_rejected_at_translation` at a concrete command. -/
theorem autocomplete_rejected_witness :
    optionToParam [] autoOpt =
      .error (.valueErrorMsg "Cannot use autocomplete in hybrid commands.") ∧
    onCallbackAdded ⟨[], []⟩ autoCmd =
      (⟨[], []⟩, some (.valueErrorMsg "Cannot use autocomplete in hybrid commands.")) :=
  ⟨autocomplete_rejected_at_translation.1 [] autoOpt rfl,
   autocomplete_rejected_at_translation.2 ⟨[], []⟩ autoCmd _ rfl rfl⟩

theorem alistErase_of_none {α : Type} {m : List (String × α)} {k : String}
    (h : alistLookup m k = none) : alistErase m k = m := by
  have h2 := alistErase_append_of_none (m := m) (k := k) [] h
  simpa [alistErase] using h2

theorem removeCommand_three (cmds : List (String × PNode)) (bn gn sn : String) :
    removeCommand cmds [bn, gn, sn] =
      match alistLookup cmds bn with
      | none => cmds
      | some base =>
          match alistLookup base.subs gn with
          | none => cmds
          | some grp =>
              let grp1 := grp.eraseSub sn
              let base1 := if grp1.subs.isEmpty then base.eraseSub gn
                else base.setSub gn grp1
              if base1.subs.isEmpty then alistErase cmds bn
              else alistInsert cmds bn base1 := rfl

theorem alistAppendVal_of_none {α : Type} {m : List (String × List α)} {k : String}
    (v : α) (h : alistLookup m k = none) :
    alistAppendVal m k v = m ++ [(k, [v])] := by
  have h2 := alistAppendVal_append_of_none (m := m) (k := k) [] v h
  simpa using h2

/-- The first registered subcommand of the tree-mirroring scenario: leaf `leaf` in group
`group` under base `base`, owned by extension `ext`, with no options. -/
def subCmd1 : HybridCmd :=
  { name := "base", groupName := some "group", subCmdName := some "leaf",
    extensionName := some "ext", options := [], parameters := [], hasCallback := true }

/-- The second registered subcommand of the scenario: leaf `leaf2` under the same base
and group. -/
def subCmd2 : HybridCmd := { subCmd1 with subCmdName := some "leaf2" }

/-- The synthesized leaf node for `subCmd1`. -/
def leafNode1 : PNode := .mk "leaf" false [] []

/-- The synthesized leaf node for `subCmd2`. -/
def leafNode2 : PNode := .mk "leaf2" false [] []

/-- The group placeholder after registering `subCmd1`. -/
def groupNode1 : PNode := .mk "group" true [] [("leaf", leafNode1)]

/-- The group placeholder after also registering `subCmd2`: the same node, extended. -/
def groupNode12 : PNode := .mk "group" true [] [("leaf", leafNode1), ("leaf2", leafNode2)]

/-- The base placeholder after registering `subCmd1`. -/
def baseNode1 : PNode := .mk "base" true [] [("group", groupNode1)]

/-- The base placeholder after also registering `subCmd2`. -/
def baseNode12 : PNode := .mk "base" true [] [("group", groupNode12)]

/-- Claim C5: starting from any state whose tree has no `base` entry and whose index has
no `ext` entry, registering `base group leaf` creates the base and group placeholders
and inserts the leaf under the group; registering `base group leaf2` reuses both
placeholders (the tree still holds a single `base` entry, whose single group child now
holds both leaves); unloading extension `ext` removes both leaves, prunes the now-empty
group and base placeholders, drops the extension's index entry, and restores the state
exactly - so every entry for unrelated commands is unchanged. -/
theorem tree_mirror_lifecycle (st : MState)
    (hb : alistLookup st.commands "base" = none)
    (he : alistLookup st.extCommandList "ext" = none) :
    onCallbackAdded st subCmd1 =
      ({ commands := st.commands ++ [("base", baseNode1)],
         extCommandList := st.extCommandList ++ [("ext", [["base", "group", "leaf"]])] },
       none) ∧
    onCallbackAdded
        { commands := st.commands ++ [("base", baseNode1)],
          extCommandList := st.extCommandList ++ [("ext", [["base", "group", "leaf"]])] }
        subCmd2 =
      ({ commands := st.commands ++ [("base", baseNode12)],
         extCommandList := st.extCommandList
           ++ [("ext", [["base", "group", "leaf"], ["base", "group", "leaf2"]])] },
       none) ∧
    handleExtUnload
        { commands := st.commands ++ [("base", baseNode12)],
          extCommandList := st.extCommandList
            ++ [("ext", [["base", "group", "leaf"], ["base", "group", "leaf2"]])] }
        "ext" = st := by
  refine ⟨?_, ?_, ?_⟩
  · unfold onCallbackAdded
    dsimp only [subCmd1, slashToPrefixedCmd, slashToPrefixedParams, Option.getD,
      Option.isSome]
    rw [hb]
    dsimp only [Option.getD, baseSubcommandGen, PNode.subs, PNode.setSub, alistLookup,
      alistInsert]
    rw [alistInsert_of_none _ hb, alistAppendVal_of_none _ he]
    rfl
  · unfold onCallbackAdded
    dsimp only [subCmd2, subCmd1, slashToPrefixedCmd, slashToPrefixedParams,
      Option.isSome]
    rw [alistLookup_append_of_none _ hb]
    dsimp only [alistLookup, Option.getD, baseNode1, groupNode1, leafNode1, PNode.subs,
      PNode.setSub, alistInsert]
    rw [alistInsert_append_of_none _ _ hb, alistAppendVal_append_of_none _ _ he]
    rfl
  · have hrm1 : removeCommand (st.commands ++ [("base", baseNode12)])
        ["base", "group", "leaf"] =
        st.commands ++ [("base", PNode.mk "base" true []
          [("group", PNode.mk "group" true [] [("leaf2", leafNode2)])])] := by
      rw [removeCommand_three, alistLookup_append_of_none _ hb]
      show alistInsert (st.commands ++ [("base", baseNode12)]) "base"
          (PNode.mk "base" true []
            [("group", PNode.mk "group" true [] [("leaf2", leafNode2)])]) =
        st.commands ++ [("base", PNode.mk "base" true []
          [("group", PNode.mk "group" true [] [("leaf2", leafNode2)])])]
      rw [alistInsert_append_of_none _ _ hb]
      rfl
    have hrm2 : removeCommand (st.commands ++ [("base", PNode.mk "base" true []
          [("group", PNode.mk "group" true [] [("leaf2", leafNode2)])])])
        ["base", "group", "leaf2"] = st.commands := by
      rw [removeCommand_three, alistLookup_append_of_none _ hb]
      show alistErase (st.commands ++ [("base", PNode.mk "base" true []
          [("group", PNode.mk "group" true [] [("leaf2", leafNode2)])])]) "base" =
        st.commands
      rw [alistErase_append_of_none _ hb]
      show st.commands ++ ([] : List (String × PNode)) = st.commands
      exact List.append_nil _
    unfold handleExtUnload
    rw [alistLookup_append_of_none _ he]
    show (⟨removeCommand (removeCommand (st.commands ++ [("base", baseNode12)])
        ["base", "group", "leaf"]) ["base", "group", "leaf2"],
      alistErase (st.extCommandList
        ++ [("ext", [["base", "group", "leaf"], ["base", "group", "leaf2"]])])
        "ext"⟩ : MState) = st
    rw [hrm1, hrm2, alistErase_append_of_none _ he]
    show (⟨st.commands,
      st.extCommandList ++ ([] : List (String × List (List String)))⟩ : MState) = st
    rw [List.append_nil]

/-- Witness for `tree_mirror_lifecycle` starting from the empty state. -/
theorem tree_mirror_lifecycle_witness :
    handleExtUnload
        { commands := [("base", baseNode12)],
          extCommandList :=
            [("ext", [["base", "group", "leaf"], ["base", "group", "leaf2"]])] }
        "ext" = (⟨[], []⟩ : MState) ∧
    onCallbackAdded ⟨[], []⟩ subCmd1 =
      ({ commands := [("base", baseNode1)],
         extCommandList := [("ext", [["base", "group", "leaf"]])] }, none) := by
  have h := tree_mirror_lifecycle ⟨[], []⟩ rfl rfl
  exact ⟨by simpa using h.2.2, by simpa using h.1⟩

end IpyHybrid
